import Mathlib

/-!
Shallow embedding of the ARTIST rendering-pipeline core
(include/graphic/pipeline/{Shader,Attribute,Uniform,Pass}.hpp and the
OpenGL validator concepts), together with theorems settling the spec
claims about it.  C++ template arguments tracked at runtime become
type tags; component registries model which capability components
exist for a given (API, PROFILE) pair; side effects on the native
driver become explicit event traces.
-/

namespace Artist

/-- Error taxonomy of the failure messages raised by the core
(TraceableException texts in the source). -/
inductive Err where
  | unsupportedType
  | typeMismatch
  | uniformNotFound
  | compilationFailed
  | nonValidContext
  | freeFailed
deriving DecidableEq, Repr

instance instDecEqExcept {ε α : Type} [DecidableEq ε] [DecidableEq α] :
    DecidableEq (Except ε α)
  | Except.ok a, Except.ok b =>
    if h : a = b then isTrue (by rw [h]) else isFalse (fun hc => h (Except.ok.inj hc))
  | Except.ok _, Except.error _ => isFalse (fun hc => Except.noConfusion hc)
  | Except.error _, Except.ok _ => isFalse (fun hc => Except.noConfusion hc)
  | Except.error e1, Except.error e2 =>
    if h : e1 = e2 then isTrue (by rw [h]) else isFalse (fun hc => h (Except.error.inj hc))

/-- Type tag standing for the C++ template argument T supplied at a
set call site (int, float, vector forms, ...).  Distinct numbers are
distinct C++ types. -/
abbrev Ty := Nat

/-- The tag of the fixed stand-in type std::shared_ptr of int that
IAttribute::set hard-codes in its HasComponent check. -/
def sharedPtrIntTag : Ty := 0

/-- A stored value together with the runtime tag of the static type
it was stored under (the typed erasure slot of the Context). -/
structure TypedVal where
  tag : Ty
  val : Nat
deriving DecidableEq, Repr

/-- Modelled from the spec: UniformContext, the per-uniform Context
entity (graphic/context/UniformContext.hpp is not part of the given
sources).  Per spec section 4.1 it exposes a generic typed value
slot with setValue and getValue accessors. -/
structure UniformContext where
  value : Option TypedVal
deriving DecidableEq, Repr

/-- Modelled from the spec: setValue stores a value, tagging its
runtime type. -/
def UniformContext.setValue (t : Ty) (v : Nat) (ctx : UniformContext) : UniformContext :=
  { ctx with value := some ⟨t, v⟩ }

/-- Modelled from the spec: getValue returns the stored value only if
the requested type matches the tag, else fails with TYPE_MISMATCH. -/
def UniformContext.getValue (t : Ty) (ctx : UniformContext) : Except Err Nat :=
  match ctx.value with
  | some tv => if tv.tag = t then .ok tv.val else .error .typeMismatch
  | none => .error .typeMismatch

/-- Driver-side events emitted by Setter components (each `on` call
issues one native driver call keyed by the component's type tag). -/
inductive SetEvent where
  | setterOn (t : Ty)
deriving DecidableEq, Repr

/-- A Setter registry: which value types have a registered Setter
component (HasComponent of Setter of T) for the (API, PROFILE) in
use.  The component itself only issues a driver call, so presence is
all the entity-layer code inspects. -/
abbrev SetterReg := Ty → Bool

/-- Uniform::set from Uniform.hpp: if a Setter component exists for
the supplied type T, store the value in the context and invoke the
Setter (one driver call); otherwise raise UNSUPPORTED_TYPE.  The
trace records every Setter invocation, also on the failure path. -/
def Uniform.set (reg : SetterReg) (t : Ty) (v : Nat) (ctx : UniformContext) :
    Except Err UniformContext × List SetEvent :=
  if reg t then
    (.ok (ctx.setValue t v), [SetEvent.setterOn t])
  else
    (.error .unsupportedType, [])

/-- Uniform::get from Uniform.hpp: delegates to the context getValue. -/
def Uniform.get (t : Ty) (ctx : UniformContext) : Except Err Nat :=
  ctx.getValue t

/-- The attribute Context's typed value slot, from
AttributeContext.hpp (the header appended inside
ARTIST/CMakeLists.txt): a std::any holding the stored value together
with the tag of the static type it was stored under. -/
structure AttributeContext where
  value : Option TypedVal
deriving DecidableEq, Repr

/-- AttributeContext::setValue from AttributeContext.hpp: when a
value is already stored, a stored type different from the supplied
type T fails the any_cast and raises TYPE_MISMATCH; otherwise the
new value is stored under T's tag. -/
def AttributeContext.setValue (t : Ty) (v : Nat) (ctx : AttributeContext) :
    Except Err AttributeContext :=
  match ctx.value with
  | some tv =>
    if tv.tag = t then .ok { ctx with value := some ⟨t, v⟩ }
    else .error .typeMismatch
  | none => .ok { ctx with value := some ⟨t, v⟩ }

/-- AttributeContext::getValue from AttributeContext.hpp: the stored
value under a matching type, TYPE_MISMATCH under a different one,
and a null pointer when nothing is stored. -/
def AttributeContext.getValue (t : Ty) (ctx : AttributeContext) : Except Err (Option Nat) :=
  match ctx.value with
  | some tv => if tv.tag = t then .ok (some tv.val) else .error .typeMismatch
  | none => .ok none

/-- IAttribute::set from Attribute.hpp: first stores the value under
the supplied type T through the context's setValue (whose
TYPE_MISMATCH on a differently-typed prior value propagates), then
checks for a Setter component specialized to the fixed stand-in type
std::shared_ptr of int (not to T) and invokes it when present; when
that stand-in Setter is absent it raises UNSUPPORTED_TYPE. -/
def IAttribute.set (reg : SetterReg) (t : Ty) (v : Nat) (ctx : AttributeContext) :
    Except Err AttributeContext × List SetEvent :=
  match AttributeContext.setValue t v ctx with
  | .error e => (.error e, [])
  | .ok ctx1 =>
    if reg sharedPtrIntTag then
      (.ok ctx1, [SetEvent.setterOn sharedPtrIntTag])
    else
      (.error .unsupportedType, [])

/-- One role slot of a component registry for a fixed (API, PROFILE)
pair: whether the component type exists (HasComponent) and, when it
exposes one, its single operational entry point `on` accepting the
Context kind (HasOnMethod).  The entry point may raise. -/
structure RoleSlot (Ctx : Type) where
  present : Bool
  onMethod : Option (Ctx → Except Err Ctx)

/-- HasComponent from ComponentConcept.hpp: the component type for
this (API, PROFILE) exists. -/
def hasComponent {Ctx : Type} (s : RoleSlot Ctx) : Bool :=
  s.present

/-- HasOnMethod from ComponentConcept.hpp: the component exposes a
static `on` entry point accepting the Context kind. -/
def hasOnMethod {Ctx : Type} (s : RoleSlot Ctx) : Bool :=
  s.onMethod.isSome

/-- The entity-layer dispatch pattern used throughout the source:
if constexpr (HasComponent) invoke Component::on(context), emitting
one invocation event; with the component absent the step is skipped
silently. -/
def RoleSlot.dispatch {Ctx ε : Type} (s : RoleSlot Ctx) (e : ε) (ctx : Ctx) :
    Except Err Ctx × List ε :=
  if s.present then
    match s.onMethod with
    | some f => (f ctx, [e])
    | none => (.ok ctx, [])
  else (.ok ctx, [])

/-- Shader kinds from graphic/context/ShaderContext.hpp as exercised
by the tests. -/
inductive ShaderType where
  | vertex
  | fragment
  | geometry
  | tessControl
  | tessEval
  | compute
deriving DecidableEq, Repr

/-- The per-shader Context: source path, shader kind, the cached
source code and the native handle captured by the Loader. -/
structure ShaderContext where
  shaderPath : String
  shaderType : ShaderType
  shaderCode : String
  shaderID : Nat
deriving DecidableEq, Repr

/-- IShader constructor from Shader.hpp: stores the kind and path in
a fresh context (code cache empty, no native handle yet). -/
def IShader.mk (shaderPath : String) (shaderType : ShaderType) : ShaderContext :=
  { shaderPath := shaderPath, shaderType := shaderType, shaderCode := "", shaderID := 0 }

/-- Shader-role invocation events. -/
inductive SEvent where
  | readerOn
  | shaderLoaderOn
  | shaderFreerOn
deriving DecidableEq, Repr

/-- The shader component registry of a (API, PROFILE) pair: the
Loader, Freer and Reader role slots of the ShaderContext. -/
structure ShaderComponents where
  loader : RoleSlot ShaderContext
  freer : RoleSlot ShaderContext
  reader : RoleSlot ShaderContext

/-- OpenGLShaderFlow from ShaderConcept.hpp: Loader, Freer and
Reader must exist and each must expose an `on` entry point. -/
def openGLShaderFlow (c : ShaderComponents) : Bool :=
  hasComponent c.loader && hasComponent c.freer && hasComponent c.reader &&
  hasOnMethod c.loader && hasOnMethod c.freer && hasOnMethod c.reader

/-- Validator::validateShader from Validator.hpp: satisfied exactly
when the OpenGLShaderFlow concept holds, and the Shader class
template requires it, so a Shader of the pair is constructible
exactly then. -/
def shaderConstructible (c : ShaderComponents) : Bool :=
  openGLShaderFlow c

/-- IShader::load from Shader.hpp: with a null context do nothing;
otherwise invoke the Reader when the cached source is empty, then
invoke the Loader.  An error from either role propagates and stops
the sequence. -/
def IShader.load (comp : ShaderComponents) :
    Option ShaderContext → Except Err (Option ShaderContext) × List SEvent
  | none => (.ok none, [])
  | some ctx =>
    match (if ctx.shaderCode.isEmpty then comp.reader.dispatch SEvent.readerOn ctx
           else (.ok ctx, [])) with
    | (.ok ctx1, es1) =>
      match comp.loader.dispatch SEvent.shaderLoaderOn ctx1 with
      | (.ok ctx2, es2) => (.ok (some ctx2), es1 ++ es2)
      | (.error e, es2) => (.error e, es1 ++ es2)
    | (.error e, es1) => (.error e, es1)

/-- IShader::free from Shader.hpp: with a null context do nothing,
otherwise invoke the Freer. -/
def IShader.free (comp : ShaderComponents) :
    Option ShaderContext → Except Err (Option ShaderContext) × List SEvent
  | none => (.ok none, [])
  | some ctx =>
    match comp.freer.dispatch SEvent.shaderFreerOn ctx with
    | (.ok ctx1, es) => (.ok (some ctx1), es)
    | (.error e, es) => (.error e, es)

/-- The Shader destructor from Shader.hpp: it calls free() with no
surrounding try block, so an error raised while freeing leaves the
destructor as an error (it is not caught there). -/
def Shader.destruct (comp : ShaderComponents) (ctx : Option ShaderContext) :
    Except Err (Option ShaderContext) × List SEvent :=
  IShader.free comp ctx

/-- The per-pass Context: the owned shader contexts (in insertion
order) and the name-keyed uniform mapping populated by the read
step. -/
structure PassContext where
  shaders : List (Option ShaderContext)
  uniforms : List (String × UniformContext)
deriving DecidableEq, Repr

/-- The pass component registry of a (API, PROFILE) pair: the six
role slots the PassContext declares (Loader, Freer, ShaderAttacher,
UniformReader, AttributeReader, User). -/
structure PassComponentSet where
  loader : RoleSlot PassContext
  freer : RoleSlot PassContext
  shaderAttacher : RoleSlot PassContext
  uniformReader : RoleSlot PassContext
  attributeReader : RoleSlot PassContext
  user : RoleSlot PassContext

/-- OpenGLPassFlow from PassConcept.hpp: the concept requires the
Loader, Freer, ShaderAttacher, AttributeReader and User components
to exist for the pair and to expose an `on` entry point accepting
the PassContext.  (It is stated over exactly the role accesses the
source concept makes.) -/
def openGLPassFlow (c : PassComponentSet) : Bool :=
  hasComponent c.loader && hasComponent c.freer && hasComponent c.shaderAttacher &&
  hasComponent c.attributeReader && hasComponent c.user &&
  hasOnMethod c.loader && hasOnMethod c.freer && hasOnMethod c.shaderAttacher &&
  hasOnMethod c.attributeReader && hasOnMethod c.user

/-- Validator::validatePass from Validator.hpp requires the
OpenGLPassFlow concept, and the Pass class template in Pass.hpp
requires validatePass, so a Pass of a (API, PROFILE) pair is
constructible exactly when the concept holds for that pair. -/
def passConstructible (c : PassComponentSet) : Bool :=
  openGLPassFlow c

/-- Events emitted while running a Pass: role invocations of its
owned shaders (tagged with the shader's position), the pass-level
role invocations, and an error report printed by the destructor. -/
inductive PassEvent where
  | shaderEvent (idx : Nat) (e : SEvent)
  | passLoaderOn
  | uniformReaderOn
  | attributeReaderOn
  | passUserOn
  | passFreerOn (ctxId : Nat)
  | errReported (e : Err)
deriving DecidableEq, Repr

/-- The shader loop of IPass::load: load each owned shader in
sequence order, an error aborting the remainder of the loop. -/
def loadShaders (comp : ShaderComponents) :
    List (Option ShaderContext) → Nat → Except Err (List (Option ShaderContext)) × List PassEvent
  | [], _ => (.ok [], [])
  | c :: rest, i =>
    match IShader.load comp c with
    | (.ok c1, es) =>
      match loadShaders comp rest (i + 1) with
      | (.ok rest1, es2) => (.ok (c1 :: rest1), es.map (PassEvent.shaderEvent i) ++ es2)
      | (.error e, es2) => (.error e, es.map (PassEvent.shaderEvent i) ++ es2)
    | (.error e, es) => (.error e, es.map (PassEvent.shaderEvent i))

/-- IPass::load from Pass.hpp: load every owned shader in order,
then invoke the pass-level Loader (the attach and link step), then
the UniformReader, then the AttributeReader; an error from any step
propagates and stops all later steps. -/
def IPass.load (scomp : ShaderComponents) (pcomp : PassComponentSet) (ctx : PassContext) :
    Except Err PassContext × List PassEvent :=
  match loadShaders scomp ctx.shaders 0 with
  | (.ok shaders1, es1) =>
    let ctx1 : PassContext := { ctx with shaders := shaders1 }
    match pcomp.loader.dispatch PassEvent.passLoaderOn ctx1 with
    | (.ok ctx2, es2) =>
      match pcomp.uniformReader.dispatch PassEvent.uniformReaderOn ctx2 with
      | (.ok ctx3, es3) =>
        match pcomp.attributeReader.dispatch PassEvent.attributeReaderOn ctx3 with
        | (r4, es4) => (r4, es1 ++ es2 ++ es3 ++ es4)
      | (.error e, es3) => (.error e, es1 ++ es2 ++ es3)
    | (.error e, es2) => (.error e, es1 ++ es2)
  | (.error e, es1) => (.error e, es1)

/-- Name lookup in the pass uniform mapping (PassContext::getUniform;
keys are unique). -/
def getUniform : List (String × UniformContext) → String → Option UniformContext
  | [], _ => none
  | (n, u) :: rest, name => if n = name then some u else getUniform rest name

/-- Replace the named uniform's context (the in-place mutation a
successful Uniform::set performs through the shared pointer held in
the mapping). -/
def updateUniform : List (String × UniformContext) → String → UniformContext →
    List (String × UniformContext)
  | [], _, _ => []
  | (n, u) :: rest, name, u1 =>
    if n = name then (n, u1) :: rest else (n, u) :: updateUniform rest name u1

/-- A Pass object: its own identity and the identity of the
PassContext its shared pointer refers to. -/
structure PassObj where
  objId : Nat
  ctxId : Nat
deriving DecidableEq, Repr

/-- The heap the pass objects live over: the allocated PassContexts,
indexed by context identity, and the allocation counter for pass
objects. -/
structure PassWorld where
  ctxs : List PassContext
  nextObj : Nat
deriving DecidableEq, Repr

/-- Pass::shared from Pass.hpp: make a new Pass object by copying
this one; the copy is a distinct object whose member shared pointer
refers to the very same PassContext. -/
def Pass.shared (p : PassObj) (w : PassWorld) : PassObj × PassWorld :=
  (⟨w.nextObj, p.ctxId⟩, { w with nextObj := w.nextObj + 1 })

/-- IPass::withUniform from Pass.hpp: look the name up in the
context's uniform mapping; when found, set that Uniform's value
(raising UNSUPPORTED_TYPE from Uniform::set when no Setter exists
for the supplied type) and return shared(); when absent, raise
UNIFORM_NOT_FOUND.  The world is returned in every outcome so that
state changes are visible on the failure paths too. -/
def IPass.withUniform (reg : SetterReg) (p : PassObj) (w : PassWorld) (name : String)
    (t : Ty) (v : Nat) : Except Err PassObj × PassWorld × List SetEvent :=
  match w.ctxs.get? p.ctxId with
  | none => (.error .nonValidContext, w, [])
  | some ctx =>
    match getUniform ctx.uniforms name with
    | some uctx =>
      match Uniform.set reg t v uctx with
      | (.ok uctx1, es) =>
        let ctx1 : PassContext := { ctx with uniforms := updateUniform ctx.uniforms name uctx1 }
        let w1 : PassWorld := { w with ctxs := w.ctxs.set p.ctxId ctx1 }
        let (q, w2) := Pass.shared p w1
        (.ok q, w2, es)
      | (.error e, es) => (.error e, w, es)
    | none => (.error .uniformNotFound, w, [])

/-- IPass::free as dispatched by Pass: invoke the pass Freer on the
object's PassContext (releasing the native program tied to it). -/
def Pass.free (freer : RoleSlot PassContext) (p : PassObj) (w : PassWorld) :
    Except Err PassWorld × List PassEvent :=
  match w.ctxs.get? p.ctxId with
  | none => (.ok w, [])
  | some ctx =>
    if freer.present then
      match freer.onMethod with
      | some f =>
        match f ctx with
        | .ok ctx1 => (.ok { w with ctxs := w.ctxs.set p.ctxId ctx1 },
                       [PassEvent.passFreerOn p.ctxId])
        | .error e => (.error e, [PassEvent.passFreerOn p.ctxId])
      | none => (.ok w, [])
    else (.ok w, [])

/-- The Pass destructor from Pass.hpp: call free() inside a try
block; an error raised while freeing is caught, reported (written to
the error stream) and swallowed, so destruction itself never raises. -/
def Pass.destruct (freer : RoleSlot PassContext) (p : PassObj) (w : PassWorld) :
    PassWorld × List PassEvent :=
  match Pass.free freer p w with
  | (.ok w1, es) => (w1, es)
  | (.error e, es) => (w, es ++ [PassEvent.errReported e])

/-- The per-pipeline Context: the number of owned passes and the
current-pass cursor (-1 is the sentinel meaning no pass active). -/
structure PipelineContext where
  passCount : Nat
  currentPass : Int
deriving DecidableEq, Repr

/-- IPipeline constructor from Uniform.hpp (the pipeline definitions
live in that header): a pipeline built over n passes starts with the
cursor at the sentinel. -/
def IPipeline.mk (n : Nat) : PipelineContext :=
  { passCount := n, currentPass := -1 }

/-- Pipeline activation events: the User role activating the pass at
the cursor, and the Resetter returning the cursor to the sentinel. -/
inductive PEvent where
  | userOn (i : Int)
  | resetterOn
deriving DecidableEq, Repr

/-- IPipeline::hasNext: true exactly when a pass exists after the
cursor. -/
def IPipeline.hasNext (ctx : PipelineContext) : Bool :=
  ctx.currentPass + 1 < (ctx.passCount : Int)

/-- IPipeline::use(i): store i as the current pass, unchecked, then
invoke the pipeline User role.  Modelled from the spec for the User
component itself: it activates the pass at the cursor (per the
OpenGL pipeline User tests). -/
def IPipeline.use (i : Int) (ctx : PipelineContext) : PipelineContext × List PEvent :=
  ({ ctx with currentPass := i }, [PEvent.userOn i])

/-- IPipeline::reset: invoke the Resetter role.  Modelled from the
spec for the Resetter component (graphic/opengl/pipeline/component/
pipeline/Resetter.hpp is not among the given sources): it returns
the cursor to the sentinel -1, as its test asserts. -/
def IPipeline.reset (ctx : PipelineContext) : PipelineContext × List PEvent :=
  ({ ctx with currentPass := -1 }, [PEvent.resetterOn])

/-- IPipeline::useNext: when a next pass exists, advance to it and
activate it, returning whether yet another pass remains; otherwise
invoke reset() and return false. -/
def IPipeline.useNext (ctx : PipelineContext) : Bool × PipelineContext × List PEvent :=
  if IPipeline.hasNext ctx then
    let (ctx1, es) := IPipeline.use (ctx.currentPass + 1) ctx
    (IPipeline.hasNext ctx1, ctx1, es)
  else
    let (ctx1, es) := IPipeline.reset ctx
    (false, ctx1, es)

/-- Call useNext() repeatedly until it returns false (the caller's
iteration loop), collecting the emitted events; the fuel bounds the
number of calls and is irrelevant once it exceeds the pass count. -/
def runUseNext : Nat → PipelineContext → PipelineContext × List PEvent
  | 0, ctx => (ctx, [])
  | fuel + 1, ctx =>
    match IPipeline.useNext ctx with
    | (b, ctx1, es) =>
      if b then
        match runUseNext fuel ctx1 with
        | (ctx2, es2) => (ctx2, es ++ es2)
      else (ctx1, es)

/-- The cursor invariant stated by the spec: the current-pass index
is the sentinel -1 or a valid index into the pass sequence. -/
def cursorInv (ctx : PipelineContext) : Prop :=
  ctx.currentPass = -1 ∨ (0 ≤ ctx.currentPass ∧ ctx.currentPass < (ctx.passCount : Int))

instance (ctx : PipelineContext) : Decidable (cursorInv ctx) := by
  unfold cursorInv
  infer_instance

/-- A role slot whose component exists and exposes a trivial `on`
entry point (used to build concrete registries). -/
def onRole {Ctx : Type} : RoleSlot Ctx :=
  ⟨true, some fun c => Except.ok c⟩

/-- A role slot whose component does not exist. -/
def noRole {Ctx : Type} : RoleSlot Ctx :=
  ⟨false, none⟩

/-- A pass component registry carrying every role except the
UniformReader. -/
def passRegNoUniformReader : PassComponentSet :=
  ⟨onRole, onRole, onRole, noRole, onRole, onRole⟩

/-- C1, counterexample.  A (API, Profile) pair whose PassContext has
Loader, Freer, ShaderAttacher, AttributeReader and User components
but no UniformReader component still satisfies validatePass, so the
Pass of that pair is constructible even though the UniformReader
role is missing — refuting that construction requires all six roles. -/
theorem uniformReader_not_required_cex :
    passConstructible passRegNoUniformReader = true
    ∧ hasComponent passRegNoUniformReader.uniformReader = false := by
  exact ⟨rfl, rfl⟩

/-- C1, amended.  A Pass of a (API, Profile) pair is constructible
exactly when the five roles the OpenGLPassFlow concept names —
Loader, Freer, ShaderAttacher, AttributeReader, User — each have a
component exposing an `on` entry point accepting the PassContext;
the UniformReader role does not participate in the gate at all
(removing it never changes constructibility). -/
theorem validatePass_roles (c : PassComponentSet) :
    (passConstructible c = true ↔
      (hasComponent c.loader = true ∧ hasComponent c.freer = true ∧
       hasComponent c.shaderAttacher = true ∧ hasComponent c.attributeReader = true ∧
       hasComponent c.user = true ∧ hasOnMethod c.loader = true ∧
       hasOnMethod c.freer = true ∧ hasOnMethod c.shaderAttacher = true ∧
       hasOnMethod c.attributeReader = true ∧ hasOnMethod c.user = true))
    ∧ passConstructible { c with uniformReader := noRole } = passConstructible c := by
  constructor
  · simp only [passConstructible, openGLPassFlow, Bool.and_eq_true]
    tauto
  · rfl

/-- The Setter registry of the Classic OpenGL profile as the source
ships it: only the stand-in type carries a Setter component. -/
def standInOnlyReg : SetterReg :=
  fun t => decide (t = sharedPtrIntTag)

/-- C2, counterexample.  With a registry holding a Setter only for
the stand-in type, setting an Attribute value of a different type
T = 1 does not raise UNSUPPORTED_TYPE even though no Setter is
registered for T — and it invokes the stand-in Setter component —
refuting that the decision depends on the actual supplied type. -/
theorem attribute_set_standin_cex :
    IAttribute.set standInOnlyReg 1 5 ⟨none⟩
      = (.ok ⟨some ⟨1, 5⟩⟩, [SetEvent.setterOn sharedPtrIntTag])
    ∧ standInOnlyReg 1 = false := by
  exact ⟨rfl, rfl⟩

/-- C2, amended.  Uniform::set raises UNSUPPORTED_TYPE exactly when
no Setter is registered for the supplied type T, and in that case
invokes no Setter component.  IAttribute::set first stores through
the context's setValue: on a context whose stored value (if any) has
the supplied type, it raises UNSUPPORTED_TYPE exactly when no Setter
is registered for the fixed stand-in type (regardless of T),
invoking no Setter in that failing case; on a context holding a
value of a different type, it raises TYPE_MISMATCH from setValue
before the Setter check, invoking no Setter component. -/
theorem set_unsupportedType_iff (reg : SetterReg) (t : Ty) (v : Nat)
    (uctx : UniformContext) (actx : AttributeContext) :
    ((Uniform.set reg t v uctx).1 = .error .unsupportedType ↔ reg t = false)
    ∧ (reg t = false → Uniform.set reg t v uctx = (.error .unsupportedType, []))
    ∧ ((∀ tv : TypedVal, actx.value = some tv → tv.tag = t) →
        (((IAttribute.set reg t v actx).1 = .error .unsupportedType
            ↔ reg sharedPtrIntTag = false)
         ∧ (reg sharedPtrIntTag = false →
             IAttribute.set reg t v actx = (.error .unsupportedType, []))))
    ∧ (∀ tv : TypedVal, actx.value = some tv → tv.tag ≠ t →
        IAttribute.set reg t v actx = (.error .typeMismatch, [])) := by
  refine ⟨?_, ?_, ?_, ?_⟩
  · unfold Uniform.set
    rcases h : reg t <;> simp
  · intro h
    unfold Uniform.set
    rw [h]
    simp
  · intro hmatch
    have hok : AttributeContext.setValue t v actx = .ok { actx with value := some ⟨t, v⟩ } := by
      unfold AttributeContext.setValue
      rcases hv : actx.value with _ | tv
      · rfl
      · simp [hmatch tv hv]
    unfold IAttribute.set
    rw [hok]
    rcases h2 : reg sharedPtrIntTag <;> simp
  · intro tv hv hne
    have herr : AttributeContext.setValue t v actx = .error .typeMismatch := by
      unfold AttributeContext.setValue
      rw [hv]
      simp [hne]
    unfold IAttribute.set
    rw [herr]

/-- C2, witness for the amended theorem: a registry with no Setter
at all on empty contexts, and a full registry on an attribute
context holding a value stored under a different type. -/
theorem set_unsupportedType_iff_witness :
    Uniform.set (fun _ => false) 1 5 ⟨none⟩ = (.error .unsupportedType, [])
    ∧ IAttribute.set (fun _ => false) 1 5 ⟨none⟩ = (.error .unsupportedType, [])
    ∧ IAttribute.set (fun _ => true) 1 5 ⟨some ⟨0, 7⟩⟩ = (.error .typeMismatch, []) :=
  ⟨(set_unsupportedType_iff (fun _ => false) 1 5 ⟨none⟩ ⟨none⟩).2.1 rfl,
   ((set_unsupportedType_iff (fun _ => false) 1 5 ⟨none⟩ ⟨none⟩).2.2.1
      (fun tv hv => Option.noConfusion hv)).2 rfl,
   (set_unsupportedType_iff (fun _ => true) 1 5 ⟨none⟩ ⟨some ⟨0, 7⟩⟩).2.2.2
      ⟨0, 7⟩ rfl (by decide)⟩

/-- C6.  After a successful Uniform::set of value v under type T,
get with T returns exactly v, and get with any different type U
raises TYPE_MISMATCH rather than coercing. -/
theorem uniform_set_get_roundtrip (reg : SetterReg) (t : Ty) (v : Nat)
    (ctx ctx1 : UniformContext) (es : List SetEvent)
    (hset : Uniform.set reg t v ctx = (.ok ctx1, es)) :
    Uniform.get t ctx1 = .ok v
    ∧ ∀ u : Ty, u ≠ t → Uniform.get u ctx1 = .error .typeMismatch := by
  unfold Uniform.set at hset
  rcases h : reg t with _ | _ <;> rw [h] at hset
  · exact absurd hset (by simp)
  · simp only [if_true, Prod.mk.injEq, Except.ok.injEq] at hset
    obtain ⟨rfl, rfl⟩ := hset
    constructor
    · simp [Uniform.get, UniformContext.getValue, UniformContext.setValue]
    · intro u hu
      simp [Uniform.get, UniformContext.getValue, UniformContext.setValue]
      intro h
      exact absurd h.symm hu

/-- C6, witness: a concrete round trip through type tag 2 with value
7, read back at the matching tag and at a mismatched tag. -/
theorem uniform_set_get_roundtrip_witness :
    Uniform.get 2 ⟨some ⟨2, 7⟩⟩ = .ok 7
    ∧ Uniform.get 5 ⟨some ⟨2, 7⟩⟩ = .error .typeMismatch :=
  ⟨(uniform_set_get_roundtrip (fun _ => true) 2 7 ⟨none⟩ ⟨some ⟨2, 7⟩⟩
      [SetEvent.setterOn 2] rfl).1,
   (uniform_set_get_roundtrip (fun _ => true) 2 7 ⟨none⟩ ⟨some ⟨2, 7⟩⟩
      [SetEvent.setterOn 2] rfl).2 5 (by decide)⟩

/-- Core of the useNext iteration: starting from cursor k - 1 with
d further passes to visit (k + d passes in all), the loop visits
passes k, k+1, ..., k+d-1 in order and stops, the call that
activated the last pass having returned false, with the cursor on
the last pass. -/
theorem runUseNext_spec (d : Nat) :
    ∀ (k fuel : Nat), 1 ≤ d → d ≤ fuel →
    runUseNext fuel ⟨k + d, (k : Int) - 1⟩
      = (⟨k + d, ((k + d : Nat) : Int) - 1⟩,
         (List.range' k d).map (fun (i : Nat) => PEvent.userOn (i : Int))) := by
  induction d with
  | zero => intro k fuel h1 _; exact absurd h1 (by omega)
  | succ e ih =>
    intro k fuel _ hfuel
    match fuel, hfuel with
    | f + 1, hfuel =>
      show runUseNext (f + 1) ⟨k + (e + 1), (k : Int) - 1⟩ = _
      rw [runUseNext]
      have hnext : IPipeline.hasNext ⟨k + (e + 1), (k : Int) - 1⟩ = true := by
        simp only [IPipeline.hasNext, decide_eq_true_eq]
        push_cast
        omega
      rw [IPipeline.useNext, hnext]
      simp only [if_true, IPipeline.use]
      have hcur : ((k : Int) - 1 + 1) = ((k : Nat) : Int) := by omega
      rw [hcur]
      rcases e with _ | e
      · have hnomore : IPipeline.hasNext ⟨k + (0 + 1), (k : Int)⟩ = false := by
          simp only [IPipeline.hasNext, decide_eq_false_iff_not]
          push_cast
          omega
        rw [hnomore]
        simp only [Bool.false_eq_true, if_false]
        rw [Prod.mk.injEq, PipelineContext.mk.injEq]
        refine ⟨⟨by omega, by push_cast; omega⟩, by simp [List.range']⟩
      · have hmore : IPipeline.hasNext ⟨k + (e + 1 + 1), (k : Int)⟩ = true := by
          simp only [IPipeline.hasNext, decide_eq_true_eq]
          push_cast
          omega
        rw [hmore]
        simp only [if_true]
        have harr : (⟨k + (e + 1 + 1), (k : Int)⟩ : PipelineContext)
            = ⟨(k + 1) + (e + 1), ((k + 1 : Nat) : Int) - 1⟩ := by
          simp only [PipelineContext.mk.injEq]
          constructor
          · omega
          · push_cast
            omega
        rw [harr, ih (k + 1) f (by omega) (by omega)]
        rw [Prod.mk.injEq, PipelineContext.mk.injEq]
        refine ⟨⟨by omega, by push_cast; omega⟩, ?_⟩
        rw [List.range'_succ, List.range'_succ]
        push_cast
        simp [List.range'_succ]

/-- C3, counterexample.  A pipeline holding one pass, started at the
sentinel: the single useNext call activates pass 0 and already
returns false, so calling useNext until it returns false ends with
the cursor on pass 0, not in the reset state -1. -/
theorem useNext_until_false_not_reset_cex :
    runUseNext 2 (IPipeline.mk 1) = (⟨1, 0⟩, [PEvent.userOn 0])
    ∧ (⟨1, 0⟩ : PipelineContext).currentPass ≠ -1 := by
  exact ⟨rfl, by decide⟩

/-- C3, amended.  From the sentinel, calling useNext until it
returns false takes n calls, activates every pass exactly once in
sequence order (passes 0 to n-1), and leaves the cursor on the last
pass n-1; the call made when no next pass exists — one further call
— invokes reset() and returns false, leaving the cursor at -1. -/
theorem useNext_exhaustion (n fuel : Nat) (h1 : 1 ≤ n) (hfuel : n ≤ fuel) :
    runUseNext fuel (IPipeline.mk n)
      = (⟨n, (n : Int) - 1⟩, (List.range n).map (fun (i : Nat) => PEvent.userOn (i : Int)))
    ∧ IPipeline.useNext ⟨n, (n : Int) - 1⟩ = (false, ⟨n, -1⟩, [PEvent.resetterOn]) := by
  constructor
  · have h := runUseNext_spec n 0 fuel h1 hfuel
    simpa [IPipeline.mk, List.range_eq_range'] using h
  · have hno : IPipeline.hasNext ⟨n, (n : Int) - 1⟩ = false := by
      simp only [IPipeline.hasNext, decide_eq_false_iff_not]
      omega
    rw [IPipeline.useNext, hno]
    simp [IPipeline.reset]

/-- C3, witness for the amended theorem at a two-pass pipeline. -/
theorem useNext_exhaustion_witness :
    runUseNext 3 (IPipeline.mk 2)
      = (⟨2, (2 : Int) - 1⟩, (List.range 2).map (fun (i : Nat) => PEvent.userOn (i : Int)))
    ∧ IPipeline.useNext ⟨2, (2 : Int) - 1⟩ = (false, ⟨2, -1⟩, [PEvent.resetterOn]) :=
  useNext_exhaustion 2 3 (by decide) (by decide)

/-- The operations a caller can perform on a pipeline after
construction. -/
inductive POp where
  | useOp (i : Int)
  | useNextOp
  | resetOp
deriving DecidableEq, Repr

/-- Apply one pipeline operation to the context (the activation
events are irrelevant to the cursor invariant). -/
def applyOp (ctx : PipelineContext) : POp → PipelineContext
  | .useOp i => (IPipeline.use i ctx).1
  | .useNextOp => (IPipeline.useNext ctx).2.1
  | .resetOp => (IPipeline.reset ctx).1

/-- Apply a sequence of pipeline operations in order. -/
def runOps (ctx : PipelineContext) : List POp → PipelineContext
  | [] => ctx
  | op :: rest => runOps (applyOp ctx op) rest

/-- No pipeline operation changes the pass count. -/
theorem applyOp_passCount (ctx : PipelineContext) (op : POp) :
    (applyOp ctx op).passCount = ctx.passCount := by
  rcases op with i | _ | _
  · rfl
  · rw [applyOp, IPipeline.useNext]
    rcases h : IPipeline.hasNext ctx <;> simp [IPipeline.use, IPipeline.reset]
  · rfl

/-- useNext() preserves the cursor invariant: either it advances to
an index that hasNext certified in range, or it resets to the
sentinel. -/
theorem useNext_preserves_cursorInv (ctx : PipelineContext) (h : cursorInv ctx) :
    cursorInv (applyOp ctx POp.useNextOp) := by
  rw [applyOp, IPipeline.useNext]
  rcases hn : IPipeline.hasNext ctx with _ | _
  · simp only [Bool.false_eq_true, if_false, IPipeline.reset]
    exact Or.inl rfl
  · simp only [IPipeline.hasNext, decide_eq_true_eq] at hn
    simp only [if_true, IPipeline.use]
    rcases h with h | h
    · right
      constructor
      · simp only
        omega
      · simpa using hn
    · right
      constructor
      · simp only
        omega
      · simpa using hn

/-- C5, counterexample.  On a one-pass pipeline, the single
operation use(5) leaves the current-pass index at 5, which is
neither -1 nor a valid index — refuting that the invariant holds
under every operation sequence. -/
theorem cursor_invariant_cex :
    ¬ cursorInv (runOps (IPipeline.mk 1) [POp.useOp 5]) := by
  decide

/-- C5, amended.  The cursor invariant (index -1 or a valid index)
holds at construction, is preserved by useNext() and by reset(),
while use(i) stores i unchecked, so it establishes the invariant
exactly when the requested index is -1 or in range; consequently
the invariant holds along every operation sequence in which each
use(i) is applied with an in-range or sentinel index. -/
theorem cursor_invariant_ops (n : Nat) (ctx : PipelineContext) (i : Int) (ops : List POp) :
    cursorInv (IPipeline.mk n)
    ∧ (cursorInv ctx → cursorInv (applyOp ctx POp.useNextOp))
    ∧ cursorInv (applyOp ctx POp.resetOp)
    ∧ (cursorInv (applyOp ctx (POp.useOp i)) ↔
        (i = -1 ∨ (0 ≤ i ∧ i < (ctx.passCount : Int))))
    ∧ (cursorInv ctx →
        (∀ j : Int, POp.useOp j ∈ ops → j = -1 ∨ (0 ≤ j ∧ j < (ctx.passCount : Int))) →
        cursorInv (runOps ctx ops)) := by
  refine ⟨?_, ?_, ?_, ?_, ?_⟩
  · exact Or.inl rfl
  · exact useNext_preserves_cursorInv ctx
  · exact Or.inl rfl
  · rw [applyOp, IPipeline.use]
    unfold cursorInv
    simp
  · intro h hall
    induction ops generalizing ctx with
    | nil => exact h
    | cons op rest ih =>
      rw [runOps]
      have hpc : (applyOp ctx op).passCount = ctx.passCount := applyOp_passCount ctx op
      refine ih (applyOp ctx op) ?_ ?_
      · rcases op with j | _ | _
        · have hj := hall j (by simp)
          rw [applyOp, IPipeline.use]
          unfold cursorInv
          simp only
          omega
        · exact useNext_preserves_cursorInv ctx h
        · exact Or.inl rfl
      · intro j hj
        rw [hpc]
        exact hall j (List.mem_cons_of_mem _ hj)

/-- C5, witness for the amended theorem: a three-operation sequence
with an in-range use index keeps the invariant. -/
theorem cursor_invariant_ops_witness :
    cursorInv (runOps (IPipeline.mk 2) [POp.useOp 1, POp.useNextOp, POp.resetOp]) :=
  (cursor_invariant_ops 2 (IPipeline.mk 2) 1
      [POp.useOp 1, POp.useNextOp, POp.resetOp]).2.2.2.2 (by decide)
    (by intro j hj; simp at hj; subst hj; decide)

/-- A shader component registry whose Freer raises when invoked
(a failing native delete), Reader and Loader trivial. -/
def throwingFreerShaderComponents : ShaderComponents :=
  ⟨onRole, ⟨true, some fun _ => Except.error Err.freeFailed⟩, onRole⟩

/-- C4.  Evaluated at the failing input — a Freer that raises while
freeing during destruction: the Pass destructor catches the error
and reports it (destruction yields no error), but the Shader
destructor, which calls free() with no try block, lets the same
error escape.  The claim holds for Pass and fails for Shader. -/
theorem destructor_exception_divergence :
    Shader.destruct throwingFreerShaderComponents (some (IShader.mk "a.vert" ShaderType.vertex))
      = (.error .freeFailed, [SEvent.shaderFreerOn])
    ∧ Pass.destruct ⟨true, some fun _ => Except.error Err.freeFailed⟩ ⟨0, 0⟩ ⟨[⟨[], []⟩], 1⟩
      = (⟨[⟨[], []⟩], 1⟩, [PassEvent.passFreerOn 0, PassEvent.errReported .freeFailed]) := by
  exact ⟨rfl, rfl⟩

/-- C8.  For a Shader with a non-null Context whose Reader and
Loader components exist: load() invokes the Reader exactly when the
Context's cached shader source is empty (when the cache is
non-empty the source is not read again), and then invokes the
Loader — on the empty-cache path once the Reader has succeeded, on
the cached path directly. -/
theorem shader_load_lazy_read (rd ld : ShaderContext → Except Err ShaderContext)
    (fr : RoleSlot ShaderContext) (ctx ctx1 : ShaderContext) :
    (ctx.shaderCode.isEmpty = true → rd ctx = .ok ctx1 →
      IShader.load ⟨⟨true, some ld⟩, fr, ⟨true, some rd⟩⟩ (some ctx)
        = ((ld ctx1).map some, [SEvent.readerOn, SEvent.shaderLoaderOn]))
    ∧ (ctx.shaderCode.isEmpty = false →
      IShader.load ⟨⟨true, some ld⟩, fr, ⟨true, some rd⟩⟩ (some ctx)
        = ((ld ctx).map some, [SEvent.shaderLoaderOn]))
    ∧ (SEvent.readerOn ∈ (IShader.load ⟨⟨true, some ld⟩, fr, ⟨true, some rd⟩⟩ (some ctx)).2
        ↔ ctx.shaderCode.isEmpty = true) := by
  refine ⟨?_, ?_, ?_⟩
  · intro hemp hrd
    simp only [IShader.load, RoleSlot.dispatch, hemp, if_true]
    rw [hrd]
    rcases hld : ld ctx1 with e | c <;> simp [hld, Except.map]
  · intro hemp
    simp only [IShader.load, RoleSlot.dispatch, hemp, Bool.false_eq_true, if_false]
    rcases hld : ld ctx with e | c <;> simp [hld, Except.map]
  · rcases hemp : ctx.shaderCode.isEmpty with _ | _
    · simp only [IShader.load, RoleSlot.dispatch, hemp, Bool.false_eq_true, if_false]
      rcases hld : ld ctx with e | c <;> simp [hld]
    · simp only [IShader.load, RoleSlot.dispatch, hemp, if_true]
      rcases hrd : rd ctx with e | c
      · simp
      · rcases hld : ld c with e2 | c2 <;> simp [hld]

/-- The Reader behavior used to witness the lazy-read theorem: it
fills the code cache. -/
def readerFill : ShaderContext → Except Err ShaderContext :=
  fun c => .ok { c with shaderCode := "code" }

/-- C8, witness at a freshly constructed vertex shader context
(empty cache) with a Reader that fills the cache and a trivial
Loader. -/
theorem shader_load_lazy_read_witness :
    IShader.load ⟨⟨true, some fun c => Except.ok c⟩, noRole, ⟨true, some readerFill⟩⟩
        (some (IShader.mk "min.vert" ShaderType.vertex))
      = ((Except.ok { IShader.mk "min.vert" ShaderType.vertex with shaderCode := "code" }).map some,
         [SEvent.readerOn, SEvent.shaderLoaderOn]) :=
  (shader_load_lazy_read readerFill (fun c => Except.ok c) noRole
      (IShader.mk "min.vert" ShaderType.vertex)
      { IShader.mk "min.vert" ShaderType.vertex with shaderCode := "code" }).1 rfl rfl

/-- The shader position an event belongs to (stage events count as
position 0; they are only compared among shader events). -/
def shaderIdx : PassEvent → Nat
  | .shaderEvent i _ => i
  | _ => 0

/-- Every event of the shader loop is a shader event whose position
is at least the starting position. -/
theorem loadShaders_mem (comp : ShaderComponents) :
    ∀ (l : List (Option ShaderContext)) (i : Nat) (e : PassEvent),
      e ∈ (loadShaders comp l i).2 →
      ∃ j se, i ≤ j ∧ e = PassEvent.shaderEvent j se := by
  intro l
  induction l with
  | nil => intro i e he; exact absurd he (by simp [loadShaders])
  | cons c rest ih =>
    intro i e he
    rw [loadShaders] at he
    rcases h1 : IShader.load comp c with ⟨r, es⟩
    rw [h1] at he
    rcases r with e1 | c1
    · simp only [List.mem_map] at he
      obtain ⟨se, _, rfl⟩ := he
      exact ⟨i, se, le_refl i, rfl⟩
    · rcases h2 : loadShaders comp rest (i + 1) with ⟨r2, es2⟩
      rw [h2] at he
      rcases r2 with e2 | l2 <;>
        · simp only [List.mem_append, List.mem_map] at he
          rcases he with ⟨se, _, rfl⟩ | he2
          · exact ⟨i, se, le_refl i, rfl⟩
          · obtain ⟨j, se, hj, rfl⟩ := ih (i + 1) e (by rw [h2]; exact he2)
            exact ⟨j, se, by omega, rfl⟩

/-- The events of the shader loop appear in shader order: their
positions are nondecreasing along the trace. -/
theorem loadShaders_sorted (comp : ShaderComponents) :
    ∀ (l : List (Option ShaderContext)) (i : Nat),
      List.Pairwise (fun a b => shaderIdx a ≤ shaderIdx b) (loadShaders comp l i).2 := by
  intro l
  induction l with
  | nil => intro i; simp [loadShaders]
  | cons c rest ih =>
    intro i
    rw [loadShaders]
    rcases h1 : IShader.load comp c with ⟨r, es⟩
    have hmapsorted : List.Pairwise (fun a b => shaderIdx a ≤ shaderIdx b)
        (es.map (PassEvent.shaderEvent i)) := by
      rw [List.pairwise_map]
      exact List.pairwise_of_forall fun _ _ => le_refl i
    rcases r with e1 | c1
    · exact hmapsorted
    · rcases h2 : loadShaders comp rest (i + 1) with ⟨r2, es2⟩
      have hcross : ∀ a ∈ es.map (PassEvent.shaderEvent i), ∀ b ∈ es2,
          shaderIdx a ≤ shaderIdx b := by
        intro a ha b hb
        simp only [List.mem_map] at ha
        obtain ⟨se, _, rfl⟩ := ha
        obtain ⟨j, se2, hj, rfl⟩ := loadShaders_mem comp rest (i + 1) b (by rw [h2]; exact hb)
        simp only [shaderIdx]
        omega
      have htail : List.Pairwise (fun a b => shaderIdx a ≤ shaderIdx b) es2 := by
        have := ih (i + 1)
        rw [h2] at this
        exact this
      rcases r2 with e2 | l2 <;> exact List.pairwise_append.mpr ⟨hmapsorted, htail, hcross⟩

/-- C7.  IPass::load runs its steps in the fixed order the source
writes them: first load() of every owned Shader in sequence order
(the trace of the shader loop consists of shader events in
nondecreasing shader order), then — once every shader load has
completed — the pass-level Loader (the shader-attaching and link
step), then the UniformReader, then the AttributeReader, each step
starting only after the previous one returned successfully. -/
theorem pass_load_order (scomp : ShaderComponents)
    (lf ur ar : PassContext → Except Err PassContext)
    (fr sa us : RoleSlot PassContext) (ctx : PassContext)
    (shaders1 : List (Option ShaderContext)) (esS : List PassEvent) (ctx2 ctx3 : PassContext)
    (hS : loadShaders scomp ctx.shaders 0 = (.ok shaders1, esS))
    (hlf : lf { ctx with shaders := shaders1 } = .ok ctx2)
    (hur : ur ctx2 = .ok ctx3) :
    IPass.load scomp ⟨⟨true, some lf⟩, fr, sa, ⟨true, some ur⟩, ⟨true, some ar⟩, us⟩ ctx
      = (ar ctx3, esS ++ [PassEvent.passLoaderOn, PassEvent.uniformReaderOn,
          PassEvent.attributeReaderOn])
    ∧ (∀ e ∈ esS, ∃ j se, e = PassEvent.shaderEvent j se)
    ∧ List.Pairwise (fun a b => shaderIdx a ≤ shaderIdx b) esS := by
  refine ⟨?_, ?_, ?_⟩
  · rw [IPass.load, hS]
    simp [RoleSlot.dispatch, hlf, hur]
  · intro e he
    obtain ⟨j, se, _, rfl⟩ := loadShaders_mem scomp ctx.shaders 0 e (by rw [hS]; exact he)
    exact ⟨j, se, rfl⟩
  · have := loadShaders_sorted scomp ctx.shaders 0
    rw [hS] at this
    exact this

/-- C7, witness at a pass owning no shaders with trivial role
implementations. -/
theorem pass_load_order_witness :
    IPass.load ⟨onRole, ⟨true, some fun c => Except.ok c⟩, onRole⟩
        ⟨⟨true, some fun c => Except.ok c⟩, noRole, noRole,
         ⟨true, some fun c => Except.ok c⟩, ⟨true, some fun c => Except.ok c⟩, noRole⟩
        ⟨[], []⟩
      = (Except.ok ⟨[], []⟩, [PassEvent.passLoaderOn, PassEvent.uniformReaderOn,
          PassEvent.attributeReaderOn]) :=
  (pass_load_order ⟨onRole, ⟨true, some fun c => Except.ok c⟩, onRole⟩
      (fun c => Except.ok c) (fun c => Except.ok c) (fun c => Except.ok c)
      noRole noRole noRole ⟨[], []⟩ [] [] ⟨[], []⟩ ⟨[], []⟩ rfl rfl rfl).1

/-- Updating the named uniform replaces exactly its entry: the name
found before now maps to the new context. -/
theorem getUniform_updateUniform_self
    (l : List (String × UniformContext)) (name : String) (u u1 : UniformContext)
    (h : getUniform l name = some u) :
    getUniform (updateUniform l name u1) name = some u1 := by
  induction l with
  | nil => exact absurd h (by simp [getUniform])
  | cons p rest ih =>
    rcases p with ⟨n, u0⟩
    rw [updateUniform]
    rcases hn : decide (n = name) with _ | _
    · simp only [decide_eq_false_iff_not] at hn
      rw [if_neg hn, getUniform, if_neg hn]
      rw [getUniform, if_neg hn] at h
      exact ih h
    · simp only [decide_eq_true_eq] at hn
      rw [if_pos hn, getUniform, if_pos hn]

/-- Updating the named uniform leaves every other name's entry
untouched. -/
theorem getUniform_updateUniform_ne
    (l : List (String × UniformContext)) (name m : String) (u1 : UniformContext)
    (h : m ≠ name) :
    getUniform (updateUniform l name u1) m = getUniform l m := by
  induction l with
  | nil => rfl
  | cons p rest ih =>
    rcases p with ⟨n, u0⟩
    rw [updateUniform]
    rcases hn : decide (n = name) with _ | _
    · simp only [decide_eq_false_iff_not] at hn
      rw [if_neg hn, getUniform, getUniform, ih]
    · simp only [decide_eq_true_eq] at hn
      subst hn
      rw [if_pos rfl, getUniform, getUniform, if_neg, if_neg]
      · exact fun hc => h hc.symm
      · exact fun hc => h hc.symm

/-- withUniform on a name present in the uniform map with a
supported type: the named uniform is set and a fresh Pass copy over
the same context is returned. -/
theorem withUniform_found_eq (reg : SetterReg) (p : PassObj) (w : PassWorld)
    (name : String) (t : Ty) (v : Nat) (ctx : PassContext) (uctx : UniformContext)
    (hctx : w.ctxs.get? p.ctxId = some ctx)
    (hu : getUniform ctx.uniforms name = some uctx)
    (hreg : reg t = true) :
    IPass.withUniform reg p w name t v
      = (.ok ⟨w.nextObj, p.ctxId⟩,
         ⟨w.ctxs.set p.ctxId
            { ctx with uniforms := updateUniform ctx.uniforms name (uctx.setValue t v) },
          w.nextObj + 1⟩,
         [SetEvent.setterOn t]) := by
  rw [IPass.withUniform, hctx]
  simp only [hu, Uniform.set, hreg, if_true, Pass.shared]

/-- C9.  On a loaded Pass, withUniform with a name absent from the
uniform map raises UNIFORM_NOT_FOUND, invokes no Setter, and leaves
the world — hence every stored Uniform — unchanged; with a present
name (and a supported type) it sets exactly that Uniform's value,
leaves every other uniform untouched, and returns a Pass over the
same context. -/
theorem withUniform_spec (reg : SetterReg) (p : PassObj) (w : PassWorld)
    (name : String) (t : Ty) (v : Nat) (ctx : PassContext)
    (hctx : w.ctxs.get? p.ctxId = some ctx) :
    (getUniform ctx.uniforms name = none →
      IPass.withUniform reg p w name t v = (.error .uniformNotFound, w, []))
    ∧ (∀ uctx : UniformContext, getUniform ctx.uniforms name = some uctx → reg t = true →
        IPass.withUniform reg p w name t v
          = (.ok ⟨w.nextObj, p.ctxId⟩,
             ⟨w.ctxs.set p.ctxId
                { ctx with uniforms := updateUniform ctx.uniforms name (uctx.setValue t v) },
              w.nextObj + 1⟩,
             [SetEvent.setterOn t])
        ∧ getUniform (updateUniform ctx.uniforms name (uctx.setValue t v)) name
            = some (uctx.setValue t v)
        ∧ ∀ m : String, m ≠ name →
            getUniform (updateUniform ctx.uniforms name (uctx.setValue t v)) m
              = getUniform ctx.uniforms m) := by
  constructor
  · intro habs
    rw [IPass.withUniform, hctx]
    simp only [habs]
  · intro uctx hu hreg
    exact ⟨withUniform_found_eq reg p w name t v ctx uctx hctx hu hreg,
      getUniform_updateUniform_self ctx.uniforms name uctx (uctx.setValue t v) hu,
      fun m hm => getUniform_updateUniform_ne ctx.uniforms name m (uctx.setValue t v) hm⟩

/-- A one-context world holding a single pass context with one
uniform named u, used to witness the withUniform theorems. -/
def wOneUniform : PassWorld :=
  ⟨[⟨[], [("u", ⟨none⟩)]⟩], 5⟩

/-- C9, witness: on the one-uniform world, the absent name x is
rejected leaving the world unchanged, and the present name u is set
to the tagged value. -/
theorem withUniform_spec_witness :
    IPass.withUniform (fun _ => true) ⟨2, 0⟩ wOneUniform "x" 3 9
      = (.error .uniformNotFound, wOneUniform, [])
    ∧ IPass.withUniform (fun _ => true) ⟨2, 0⟩ wOneUniform "u" 3 9
      = (.ok ⟨5, 0⟩, ⟨[⟨[], [("u", ⟨some ⟨3, 9⟩⟩)]⟩], 6⟩, [SetEvent.setterOn 3]) := by
  constructor
  · exact (withUniform_spec (fun _ => true) ⟨2, 0⟩ wOneUniform "x" 3 9
      ⟨[], [("u", ⟨none⟩)]⟩ rfl).1 (by decide)
  · have h := ((withUniform_spec (fun _ => true) ⟨2, 0⟩ wOneUniform "u" 3 9
      ⟨[], [("u", ⟨none⟩)]⟩ rfl).2 ⟨none⟩ (by decide) rfl).1
    rw [h]
    decide

/-- Elements written by List.set are read back at the same
position. -/
theorem get?_set_self {α : Type} :
    ∀ (l : List α) (i : Nat) (a : α), i < l.length → (l.set i a).get? i = some a := by
  intro l
  induction l with
  | nil => intro i a h; exact absurd h (by simp)
  | cons b rest ih =>
    intro i a h
    rcases i with _ | i
    · rfl
    · exact ih i a (by simpa using h)

/-- C10.  A successful withUniform returns a Pass object that is a
newly constructed copy — a different object identity — whose shared
pointer refers to the very same PassContext as the original Pass;
destroying that returned copy therefore invokes the Pass Freer on
the context the original Pass still owns. -/
theorem withUniform_shared_destruct (reg : SetterReg) (p : PassObj) (w : PassWorld)
    (name : String) (t : Ty) (v : Nat) (ctx : PassContext) (uctx : UniformContext)
    (f : PassContext → Except Err PassContext)
    (q : PassObj) (w2 : PassWorld) (es : List SetEvent)
    (hctx : w.ctxs.get? p.ctxId = some ctx)
    (hu : getUniform ctx.uniforms name = some uctx)
    (hreg : reg t = true)
    (halloc : p.objId < w.nextObj)
    (hres : IPass.withUniform reg p w name t v = (.ok q, w2, es)) :
    q.objId ≠ p.objId
    ∧ q.ctxId = p.ctxId
    ∧ PassEvent.passFreerOn p.ctxId ∈ (Pass.destruct ⟨true, some f⟩ q w2).2 := by
  rw [withUniform_found_eq reg p w name t v ctx uctx hctx hu hreg] at hres
  simp only [Prod.mk.injEq, Except.ok.injEq] at hres
  obtain ⟨rfl, rfl, rfl⟩ := hres
  refine ⟨by show w.nextObj ≠ p.objId; omega, rfl, ?_⟩
  have hlen : p.ctxId < w.ctxs.length := by
    obtain ⟨hlt, -⟩ := List.get?_eq_some.mp hctx
    exact hlt
  rw [Pass.destruct, Pass.free]
  simp only [get?_set_self w.ctxs p.ctxId _ hlen, if_true]
  rcases hf : f { ctx with uniforms := updateUniform ctx.uniforms name (uctx.setValue t v) }
      with e | c <;> simp [hf]

/-- C10, witness on the one-uniform world with an allocated object
counter ahead of the pass object's identity. -/
theorem withUniform_shared_destruct_witness :
    (⟨5, 0⟩ : PassObj).objId ≠ (⟨2, 0⟩ : PassObj).objId
    ∧ (⟨5, 0⟩ : PassObj).ctxId = (⟨2, 0⟩ : PassObj).ctxId
    ∧ PassEvent.passFreerOn (⟨2, 0⟩ : PassObj).ctxId
        ∈ (Pass.destruct ⟨true, some fun c => Except.ok c⟩ ⟨5, 0⟩
            ⟨[⟨[], [("u", ⟨some ⟨3, 9⟩⟩)]⟩], 6⟩).2 :=
  withUniform_shared_destruct (fun _ => true) ⟨2, 0⟩ wOneUniform "u" 3 9
    ⟨[], [("u", ⟨none⟩)]⟩ ⟨none⟩ (fun c => Except.ok c) ⟨5, 0⟩
    ⟨[⟨[], [("u", ⟨some ⟨3, 9⟩⟩)]⟩], 6⟩ [SetEvent.setterOn 3]
    rfl (by decide) rfl (by decide) (by decide)

end Artist
